import Mathlib

/-! ## YouChat backend: role detection and write propagation

A shallow embedding of `backend/main.go`: the wire grammar used by the replica
(`regexp.MustCompile(pattern).FindStringSubmatch`), the decode-and-dispatch body of
`handleMessage`, `broadcastMsg`, the three record hooks registered in `main`, and the
dial/receive loop of `handleMessage`.

Strings are sequences of characters; a websocket connection is identified by a number
(the `*websocket.Conn` pointer); `log.Println` lines have no effect on the state and are
left out; every other side effect is appended to a trace of `Act`s.
-/

namespace YouChat

/-! ## Regular expressions

The fragment of Go's `regexp` syntax that `pattern` uses, with the semantics the package
documents: leftmost-first (the match a backtracking engine finds first), `.` does not match
a newline, a negated class does, `^` and `$` match at the beginning and end of the text,
and a group that takes no part in the match is reported as the empty string. -/

/-- Matchers of one character. -/
inductive CharClass where
  /-- A literal character such as `:`. -/
  | lit (c : Char)
  /-- A negated class of one character such as `[^:]`. -/
  | notLit (c : Char)
  /-- The dot: any character except newline. -/
  | dot

/-- Whether a character belongs to a class. -/
def CharClass.test : CharClass → Char → Bool
  | .lit c, x => x == c
  | .notLit c, x => x != c
  | .dot, x => x != '\n'

/-- Regular expressions: anchors, classes, concatenation, greedy `+` and lazy `*?` of a
class, greedy `?`, and numbered capture groups. -/
inductive Regex where
  | bol
  | eol
  | cls (k : CharClass)
  | seq (r s : Regex)
  | plus (k : CharClass)
  | starLazy (k : CharClass)
  | opt (r : Regex)
  | group (i : Nat) (r : Regex)

/-- A point of a match in progress: characters consumed so far, the text still to read,
and the text captured by each group so far. -/
structure MState where
  pos : Nat
  rest : List Char
  caps : List (Option (List Char))

/-- All ways for `k*` to consume a prefix, longest first. -/
def greedyStar (k : CharClass) : Nat → List Char → List (Nat × List Char)
  | pos, [] => [(pos, [])]
  | pos, c :: cs =>
    if k.test c then greedyStar k (pos + 1) cs ++ [(pos, c :: cs)] else [(pos, c :: cs)]

/-- All ways for `k*?` to consume a prefix, shortest first. -/
def lazyStar (k : CharClass) : Nat → List Char → List (Nat × List Char)
  | pos, [] => [(pos, [])]
  | pos, c :: cs =>
    (pos, c :: cs) :: (if k.test c then lazyStar k (pos + 1) cs else [])

/-- All ways for a regular expression to match at a point, in the order a backtracking
engine tries them. -/
def Regex.run : Regex → MState → List MState
  | .bol, st => if st.pos = 0 then [st] else []
  | .eol, st => if st.rest.isEmpty then [st] else []
  | .cls k, st =>
    match st.rest with
    | [] => []
    | c :: cs => if k.test c then [{ st with pos := st.pos + 1, rest := cs }] else []
  | .seq r s, st => (r.run st).flatMap s.run
  | .plus k, st =>
    match st.rest with
    | [] => []
    | c :: cs =>
      if k.test c then
        (greedyStar k (st.pos + 1) cs).map fun p => { st with pos := p.1, rest := p.2 }
      else []
  | .starLazy k, st =>
    (lazyStar k st.pos st.rest).map fun p => { st with pos := p.1, rest := p.2 }
  | .opt r, st => r.run st ++ [st]
  | .group i r, st =>
    (r.run st).map fun st2 =>
      { st2 with caps := st2.caps.set i (some (st.rest.take (st2.pos - st.pos))) }

/-- Number of capture groups of an expression, group 0 (the whole match) not counted. -/
def Regex.numGroups : Regex → Nat
  | .seq r s => max r.numGroups s.numGroups
  | .opt r => r.numGroups
  | .group i r => max i r.numGroups
  | _ => 0

/-- All matches of an expression in a text, over every start offset, leftmost start first;
each is the list of captures, group 0 being the whole match. -/
def Regex.allFrom (re : Regex) : Nat → List Char → List (List (Option (List Char)))
  | pos, s =>
    ((Regex.group 0 re).run ⟨pos, s, List.replicate (re.numGroups + 1) none⟩).map (·.caps) ++
      match s with
      | [] => []
      | _ :: cs => allFrom re (pos + 1) cs

/-- Go's `(*Regexp).FindStringSubmatch`: the captures of the leftmost-first match, the
empty string for a group that did not take part, and the nil slice when nothing matches. -/
def FindStringSubmatch (re : Regex) (s : String) : List String :=
  match re.allFrom 0 s.data with
  | [] => []
  | caps :: _ => caps.map fun o => match o with
    | some l => String.mk l
    | none => ""

/-- The wire grammar of `handleMessage`: `^([^:]+):([^:]+):((.*?):)?([^:]+)$`. -/
def pattern : Regex :=
  .seq .bol <|
  .seq (.group 1 (.plus (.notLit ':'))) <|
  .seq (.cls (.lit ':')) <|
  .seq (.group 2 (.plus (.notLit ':'))) <|
  .seq (.cls (.lit ':')) <|
  .seq (.opt (.group 3 (.seq (.group 4 (.starLazy .dot)) (.cls (.lit ':'))))) <|
  .seq (.group 5 (.plus (.notLit ':'))) .eol

/-! ## Storage collaborator -/

/-- A websocket connection, identified by its pointer. -/
abbrev Conn := Nat

/-- Field values loaded into a record form, in the order of the map literal. -/
abbrev Fields := List (String × String)

/-- Records held by the storage collaborator: collection name and record id to the
record's fields. The collections "messages" and "users" are taken to exist. -/
abbrev Store := String → String → Option Fields

/-- The store with one record created or overwritten. -/
def Store.put (db : Store) (collection id : String) (data : Fields) : Store :=
  fun c i => if c = collection ∧ i = id then some data else db c i

/-- The record model handed to the upsert form. -/
structure Record where
  collection : String
  isNew : Bool

/-- A fresh record of a collection, as `models.NewRecord` builds it. -/
def NewRecord (collection : String) : Record := ⟨collection, true⟩

/-- The upsert form of a record with the data loaded into it. -/
structure RecordUpsert where
  record : Record
  data : Fields

/-- An empty form for a record, as `forms.NewRecordUpsert` builds it. -/
def NewRecordUpsert (record : Record) : RecordUpsert := ⟨record, []⟩

/-- Load field values into a form, as `form.LoadData` does. -/
def RecordUpsert.LoadData (form : RecordUpsert) (data : Fields) : RecordUpsert :=
  { form with data := data }

/-- The identifier loaded into a form. -/
def RecordUpsert.id (form : RecordUpsert) : String := (form.data.lookup "id").getD ""

/-- Modelled from the spec: the storage collaborator's
`upsert(collection, id, fields) -> Ok | ValidationError` behind `form.Submit()`, which is
library code outside the repository. The collaborator's validation is the parameter
`validate`; when it accepts, the record with that id is created or its fields are
overwritten; when it rejects, nothing is stored and an error is returned. -/
def RecordUpsert.Submit (validate : Store → RecordUpsert → Bool) (db : Store)
    (form : RecordUpsert) : Except Unit Store :=
  if validate db form then
    .ok (db.put form.record.collection form.id form.data)
  else .error ()

/-! ## Effects and panics -/

/-- Observable side effects, in the order they happen. -/
inductive Act where
  /-- A call of `broadcastMsg`. -/
  | broadcast (message : String)
  /-- One `websocket.Message.Send` and whether it returned without error. -/
  | send (pb : Conn) (message : String) (ok : Bool)
  /-- The goroutine running `http.ListenAndServe` on an address. -/
  | listen (addr : String)
  /-- One `time.Sleep`, in seconds. -/
  | sleep (seconds : Nat)
  /-- One `websocket.Dial` and whether it succeeded. -/
  | dial (url : String) (ok : Bool)
  /-- One `ws.Close()`. -/
  | close (ws : Conn)
  /-- One `form.Submit()` on a collection and whether it returned without error. -/
  | submit (collection : String) (data : Fields) (ok : Bool)
  deriving DecidableEq, Repr

/-- Run-time panics of the Go program. -/
inductive Panic where
  /-- Indexing a slice of the given length at the given index. -/
  | indexOutOfRange (index length : Nat)
  /-- Using a nil connection. -/
  | nilDereference
  deriving DecidableEq, Repr

/-- Go's slice indexing `submatches[i]`, which panics outside the slice. -/
def index (submatches : List String) (i : Nat) : Except Panic String :=
  match submatches.get? i with
  | some s => .ok s
  | none => .error (.indexOutOfRange i submatches.length)

/-! ## Replica side: decode and dispatch -/

/-- The body of the receive loop of `handleMessage` after a frame was received: match the
frame against `pattern`, switch on group 1 and submit the upsert form. A failing
`Submit` is logged and nothing else happens. -/
def dispatch (validate : Store → RecordUpsert → Bool) (db : Store) (message : String) :
    Except Panic (Store × List Act) := do
  let submatches := FindStringSubmatch pattern message
  let tag ← index submatches 1
  if tag = "1" then
    let id ← index submatches 2
    let content ← index submatches 4
    let user ← index submatches 5
    let record := NewRecord "messages"
    let form := (NewRecordUpsert record).LoadData [("id", id), ("content", content), ("user", user)]
    match form.Submit validate db with
    | .ok db2 => pure (db2, [.submit "messages" form.data true])
    | .error _ => pure (db, [.submit "messages" form.data false])
  else if tag = "2" then
    let id ← index submatches 2
    let username ← index submatches 5
    let record := NewRecord "users"
    let form := (NewRecordUpsert record).LoadData [("id", id), ("username", username)]
    match form.Submit validate db with
    | .ok db2 => pure (db2, [.submit "users" form.data true])
    | .error _ => pure (db, [.submit "users" form.data false])
  else
    pure (db, [])

/-! ## Primary side: the connection registry and the broadcast -/

/-- The loop of `broadcastMsg` over the keys still to visit, with the current map: a
failed send deletes the key. -/
def broadcastLoop (send : Conn → String → Bool) (message : String) :
    List Conn → List Conn → List Act → List Conn × List Act
  | [], connectedServers, acts => (connectedServers, acts)
  | pb :: keys, connectedServers, acts =>
    if send pb message then
      broadcastLoop send message keys connectedServers (acts ++ [.send pb message true])
    else
      broadcastLoop send message keys (connectedServers.erase pb)
        (acts ++ [.send pb message false])

/-- The function `broadcastMsg` on the registry `connectedServers` (the keys of the map, in
the order the range loop yields them): the registry afterwards and the effects. -/
def broadcastMsg (send : Conn → String → Bool) (connectedServers : List Conn)
    (message : String) : List Conn × List Act :=
  broadcastLoop send message connectedServers connectedServers [.broadcast message]

/-! ## The node -/

/-- Where the `handleMessage` goroutine stands: at the top of the outer loop or at the top
of the receive loop. -/
inductive Pc where
  | outer
  | inner
  deriving DecidableEq, Repr

/-- State of one process. `ws` is the variable of `main` that the before-create hook
reads; `handleMessage_ws` is the parameter of `handleMessage`, a copy made at the `go`
statement. -/
structure Node where
  PK : Bool
  connectedServers : List Conn
  ws : Option Conn
  handleMessage_ws : Option Conn
  pc : Pc
  listening : Bool
  db : Store
  trace : List Act
  crashed : Option Panic

/-- The state after `main` has started the `handleMessage` goroutine and registered the
hooks. -/
def Node.start (db : Store) : Node :=
  { PK := false, connectedServers := [], ws := none, handleMessage_ws := none, pc := .outer,
    listening := false, db := db, trace := [], crashed := none }

/-- The function `handleWebSocket`: register the accepted connection. -/
def handleWebSocket (n : Node) (ws : Conn) : Node :=
  if ws ∈ n.connectedServers then n
  else { n with connectedServers := n.connectedServers ++ [ws] }

/-- The hook `OnRecordBeforeCreateRequest("messages", "users")`; `bindOk` tells whether
`http.ListenAndServe` could bind the port. -/
def onRecordBeforeCreateRequest (n : Node) (bindOk : Bool) : Node :=
  if n.ws = none ∧ n.PK = false then
    { n with
      PK := true
      listening := n.listening || bindOk
      trace := n.trace ++ [.listen "0.0.0.0:8081", .sleep 3] }
  else n

/-- The frame text of a message: type tag 1, id, content, user. -/
def messageFrame (id content user : String) : String :=
  "1:" ++ id ++ ":" ++ content ++ ":" ++ user

/-- The frame text of a user: type tag 2, id, username. -/
def userFrame (id username : String) : String :=
  "2:" ++ id ++ ":" ++ username

/-- The record `e.Record` of a create event as the after-create hooks read it: its id,
its current field values, and the data its original copy is loaded from. -/
structure EventRecord where
  Id : String
  data : Fields
  originalData : Fields

/-- The getter `GetString` of a record: the value of a field, empty when it has none. -/
def EventRecord.GetString (r : EventRecord) (key : String) : String :=
  (r.data.lookup key).getD ""

/-- The method `OriginalCopy()` of a record, library code outside the repository: a new
record loaded with the original data only. -/
def EventRecord.OriginalCopy (r : EventRecord) : EventRecord :=
  { Id := (r.originalData.lookup "id").getD "", data := r.originalData,
    originalData := r.originalData }

/-- The record a create request for a message hands to the hooks, by the behaviour of the
record library: content and user are schema fields, loaded in bulk into the fresh record,
and so they are its original data; the id is set apart. -/
def createdMessage (id content user : String) : EventRecord :=
  { Id := id, data := [("content", content), ("user", user)],
    originalData := [("content", content), ("user", user)] }

/-- The record a create request for a user hands to the hooks, by the behaviour of the
record library: the username is an auth field set on the record apart from the bulk load,
so the record has it and its original data has not. -/
def createdUser (id username : String) : EventRecord :=
  { Id := id, data := [("username", username)], originalData := [] }

/-- The hook `OnRecordAfterCreateRequest("messages")` on the record of the event: the
frame is built from `e.Record.Id` and from `e.Record.OriginalCopy().GetString` of content
and user. -/
def onRecordAfterCreateRequestMessages (n : Node) (send : Conn → String → Bool)
    (e : EventRecord) : Node :=
  if n.PK then
    let r := broadcastMsg send n.connectedServers
      (messageFrame e.Id (e.OriginalCopy.GetString "content") (e.OriginalCopy.GetString "user"))
    { n with connectedServers := r.1, trace := n.trace ++ r.2 }
  else n

/-- The hook `OnRecordAfterCreateRequest("users")` on the record of the event: the frame
is built from `e.Record.Id` and from `e.Record.OriginalCopy().GetString("username")`. -/
def onRecordAfterCreateRequestUsers (n : Node) (send : Conn → String → Bool)
    (e : EventRecord) : Node :=
  if n.PK then
    let r := broadcastMsg send n.connectedServers
      (userFrame e.Id (e.OriginalCopy.GetString "username"))
    { n with connectedServers := r.1, trace := n.trace ++ r.2 }
  else n

/-- The address the replica dials. -/
def dialUrl : String := "ws://host.docker.internal:8081/ws"

/-- One step of the `handleMessage` goroutine, from one blocking call to the next. `dial`
is the outcome of `websocket.Dial` should the step dial, `recv` the outcome of
`websocket.Message.Receive` should it receive (the error's text, or the frame). -/
def handleMessage (validate : Store → RecordUpsert → Bool) (n : Node)
    (dial : Option Conn) (recv : Except String String) : Node :=
  match n.pc with
  | .outer =>
    if n.handleMessage_ws = none ∧ n.PK = false then
      match dial with
      | none =>
        { n with handleMessage_ws := none, trace := n.trace ++ [.dial dialUrl false, .sleep 3] }
      | some c =>
        { n with handleMessage_ws := some c, pc := .inner,
                 trace := n.trace ++ [.dial dialUrl true] }
    else if n.handleMessage_ws ≠ none then { n with pc := .inner }
    else { n with trace := n.trace ++ [.sleep 100] }
  | .inner =>
    match n.handleMessage_ws with
    | none => { n with crashed := some .nilDereference }
    | some c =>
      match recv with
      | .error err =>
        if err = "EOF" then
          { n with handleMessage_ws := none, pc := .outer, trace := n.trace ++ [.close c] }
        else { n with pc := .outer }
      | .ok message =>
        match dispatch validate n.db message with
        | .ok (db, acts) => { n with db := db, trace := n.trace ++ acts }
        | .error p => { n with crashed := some p }

/-- What can happen to a node. -/
inductive Event where
  | beforeCreate (bindOk : Bool)
  | afterCreateMessage (send : Conn → String → Bool) (e : EventRecord)
  | afterCreateUser (send : Conn → String → Bool) (e : EventRecord)
  | accept (ws : Conn)
  | locator (dial : Option Conn) (recv : Except String String)

/-- One event on a node. A panic ends the process: nothing happens afterwards. A follower
can only be accepted while the listener runs. -/
def step (validate : Store → RecordUpsert → Bool) (n : Node) (ev : Event) : Node :=
  if n.crashed.isSome then n
  else
    match ev with
    | .beforeCreate bindOk => onRecordBeforeCreateRequest n bindOk
    | .afterCreateMessage send e => onRecordAfterCreateRequestMessages n send e
    | .afterCreateUser send e => onRecordAfterCreateRequestUsers n send e
    | .accept ws => if n.listening then handleWebSocket n ws else n
    | .locator dial recv => handleMessage validate n dial recv

/-- A sequence of events on a node. -/
def run (validate : Store → RecordUpsert → Bool) (n : Node) (evs : List Event) : Node :=
  evs.foldl (step validate) n

/-- Number of times the promotion block ran: its listener goroutines in a trace. -/
def promotions (trace : List Act) : Nat :=
  (trace.filter fun a => a = .listen "0.0.0.0:8081").length

/-- The frames `broadcastMsg` was called with, in a trace. -/
def broadcasts : List Act → List String
  | [] => []
  | .broadcast m :: t => m :: broadcasts t
  | _ :: t => broadcasts t

/-- The connections a trace tried to send to, in order. -/
def attempts : List Act → List Conn
  | [] => []
  | .send pb _ _ :: t => pb :: attempts t
  | _ :: t => attempts t

/-- The connections a trace delivered to, in order. -/
def delivered : List Act → List Conn
  | [] => []
  | .send pb _ true :: t => pb :: delivered t
  | _ :: t => delivered t

/-! ## Observations, sample collaborators and parts of the pattern -/

/-- Texts on which the closing colon of the content group and the name can match: a
colon followed by a non-empty text without colon. -/
def Good : List Char → Bool
  | ':' :: v => !v.isEmpty && v.all (· != ':')
  | _ => false

/-- What follows one way of matching the lazy star inside the content group. -/
def afterStar {β : Type} (g : MState → List β) (p : Nat) (s : List Char)
    (caps : List (Option (List Char))) (q : Nat × List Char) : List β :=
  match q.2 with
  | ':' :: v =>
    g ⟨q.1 + 1, v, (caps.set 4 (some (s.take (q.1 - p)))).set 3 (some (s.take (q.1 + 1 - p)))⟩
  | _ => []

/-- The part of the pattern after the second colon. -/
def contentTail : Regex :=
  .seq (.opt (.group 3 (.seq (.group 4 (.starLazy .dot)) (.cls (.lit ':')))))
    (.seq (.group 5 (.plus (.notLit ':'))) .eol)

/-- A collaborator whose validation accepts every submission. -/
def acceptAll : Store → RecordUpsert → Bool := fun _ _ => true

/-- A collaborator whose validation rejects a fresh record whose id is already taken. -/
def rejectTaken : Store → RecordUpsert → Bool := fun db form =>
  !(form.record.isNew && (db form.record.collection form.id).isSome)

/-- A store without records. -/
def emptyDb : Store := fun _ _ => none

/-- The effects of a dispatch, or its panic. -/
def effects (r : Except Panic (Store × List Act)) : Except Panic (List Act) := r.map (·.2)

/-- Whether an event is an invocation of the before-create hook. -/
def Event.isBeforeCreate : Event → Bool
  | .beforeCreate _ => true
  | _ => false

/-- The store a dispatch leaves, or its panic. -/
def storeAfter (r : Except Panic (Store × List Act)) : Except Panic Store := r.map (·.1)

/-- A store holding one message with id abc and content old. -/
def oneMessage : Store := fun c i =>
  if c = "messages" ∧ i = "abc" then some [("id", "abc"), ("content", "old"), ("user", "u1")]
  else none

/-! ## Lemmas on the matcher -/

theorem greedyStar_flatMap {β : Type} (f : Nat × List Char → List β) (rest : List Char)
    (hrest : ∀ c cs, rest = c :: cs → c = ':')
    (hf : ∀ p c cs, c ≠ ':' → f (p, c :: cs) = []) :
    ∀ (a : List Char) (pos : Nat), (∀ c ∈ a, c ≠ ':') →
      (greedyStar (.notLit ':') pos (a ++ rest)).flatMap f = f (pos + a.length, rest) := by
  intro a
  induction a with
  | nil =>
    intro pos _
    cases rest with
    | nil => simp [greedyStar]
    | cons c cs =>
      have hc : c = ':' := hrest c cs rfl
      subst hc
      simp [greedyStar, CharClass.test]
  | cons x a ih =>
    intro pos ha
    have hx : x ≠ ':' := ha x (by simp)
    have ha2 : ∀ c ∈ a, c ≠ ':' := fun c hc => ha c (by simp [hc])
    simp only [List.cons_append, greedyStar, CharClass.test, bne_iff_ne, ne_eq, hx,
      not_false_eq_true, if_true, List.flatMap_append, List.flatMap_cons, List.flatMap_nil,
      List.append_nil, List.append_eq]
    rw [ih (pos + 1) ha2, hf pos x (a ++ rest) hx]
    simp [Nat.add_assoc, Nat.add_comm 1]

theorem run_group_plus {β : Type} (g : MState → List β) (i : Nat) (rest : List Char)
    (hrest : ∀ c cs, rest = c :: cs → c = ':')
    (hg : ∀ st c cs, st.rest = c :: cs → c ≠ ':' → g st = [])
    (a : List Char) (pos : Nat) (caps : List (Option (List Char)))
    (hne : a ≠ []) (ha : ∀ c ∈ a, c ≠ ':') :
    ((Regex.group i (.plus (.notLit ':'))).run ⟨pos, a ++ rest, caps⟩).flatMap g =
      g ⟨pos + a.length, rest, caps.set i (some a)⟩ := by
  cases a with
  | nil => exact absurd rfl hne
  | cons x a =>
    have hx : x ≠ ':' := ha x (by simp)
    have ha2 : ∀ c ∈ a, c ≠ ':' := fun c hc => ha c (by simp [hc])
    simp only [Regex.run, List.cons_append, CharClass.test, bne_iff_ne, ne_eq, hx,
      not_false_eq_true, if_true, List.map_map, List.flatMap_map]
    rw [greedyStar_flatMap _ rest hrest _ a (pos + 1) ha2]
    · have h1 : pos + 1 + a.length - pos = a.length + 1 := by omega
      have h2 : pos + 1 + a.length = pos + (a.length + 1) := by omega
      simp [h1, h2, List.take_append_eq_append_take]
    · intro p c cs hc
      exact hg _ c cs rfl hc

theorem split_colon (u : List Char) :
    (∀ c ∈ u, c ≠ ':') ∨ ∃ a r, u = a ++ ':' :: r ∧ ∀ c ∈ a, c ≠ ':' := by
  induction u with
  | nil => left; simp
  | cons x u ih =>
    by_cases hx : x = ':'
    · right; exact ⟨[], u, by simp [hx], by simp⟩
    · rcases ih with h | ⟨a, r, h, ha⟩
      · left
        intro c hc
        rcases List.mem_cons.mp hc with h1 | h1
        · exact h1 ▸ hx
        · exact h c h1
      · right
        refine ⟨x :: a, r, by simp [h], ?_⟩
        intro c hc
        rcases List.mem_cons.mp hc with h1 | h1
        · exact h1 ▸ hx
        · exact ha c h1

/-- The last group and the end anchor on a non-empty text without colon. -/
theorem run_name_ok (p : Nat) (u : List Char) (caps : List (Option (List Char)))
    (hne : u ≠ []) (hu : ∀ c ∈ u, c ≠ ':') :
    (Regex.seq (.group 5 (.plus (.notLit ':'))) .eol).run ⟨p, u, caps⟩ =
      [⟨p + u.length, [], caps.set 5 (some u)⟩] := by
  have h := run_group_plus (Regex.run .eol) 5 [] (by simp)
    (by intro st c cs h _; simp [Regex.run, h]) u p caps hne hu
  simp only [List.append_nil] at h
  simp only [Regex.run] at h ⊢
  rw [h]
  simp

/-- The last group and the end anchor fail on any other text. -/
theorem run_name_fail (p : Nat) (u : List Char) (caps : List (Option (List Char)))
    (h : u = [] ∨ ':' ∈ u) :
    (Regex.seq (.group 5 (.plus (.notLit ':'))) .eol).run ⟨p, u, caps⟩ = [] := by
  rcases h with h | h
  · subst h; simp [Regex.run]
  · rcases split_colon u with h2 | ⟨a, r, h2, ha⟩
    · exact absurd rfl (h2 ':' h)
    · subst h2
      by_cases hne : a = []
      · subst hne; simp [Regex.run, CharClass.test]
      · have h3 := run_group_plus (Regex.run .eol) 5 (':' :: r)
          (by intro c cs h; simp at h; exact h.1.symm)
          (by intro st c cs h _; simp [Regex.run, h]) a p caps hne ha
        simp only [Regex.run] at h3 ⊢
        rw [h3]
        simp

theorem mem_lazyStar (k : CharClass) :
    ∀ (s : List Char) (pos : Nat) (q : Nat × List Char),
      q ∈ lazyStar k pos s → ∃ a, s = a ++ q.2 := by
  intro s
  induction s with
  | nil => intro pos q h; simp [lazyStar] at h; subst h; exact ⟨[], rfl⟩
  | cons x s ih =>
    intro pos q h
    simp only [lazyStar, List.mem_cons] at h
    rcases h with h | h
    · subst h; exact ⟨[], rfl⟩
    · split at h
      · obtain ⟨a, ha⟩ := ih _ _ h
        exact ⟨x :: a, by simp [← ha]⟩
      · simp at h

theorem good_iff (s : List Char) :
    Good s = true ↔ ∃ v, s = ':' :: v ∧ v ≠ [] ∧ ∀ c ∈ v, c ≠ ':' := by
  constructor
  · intro h
    cases s with
    | nil => simp [Good] at h
    | cons c v =>
      by_cases hc : c = ':'
      · subst hc
        simp only [Good, Bool.and_eq_true, Bool.not_eq_true', List.isEmpty_eq_false,
          List.all_eq_true, bne_iff_ne, ne_eq] at h
        exact ⟨v, rfl, h.1, h.2⟩
      · unfold Good at h
        split at h
        · rename_i heq; simp at heq; exact absurd heq.1 hc
        · simp at h
  · rintro ⟨v, rfl, hv, hc⟩
    simp only [Good, Bool.and_eq_true, Bool.not_eq_true', List.isEmpty_eq_false,
      List.all_eq_true, bne_iff_ne, ne_eq]
    exact ⟨hv, hc⟩

theorem lazyStar_none {β : Type} (F : Nat × List Char → List β)
    (hF : ∀ q, ¬ Good q.2 → F q = []) (u : List Char) (pos : Nat) (hu : ∀ c ∈ u, c ≠ ':') :
    (lazyStar .dot pos u).flatMap F = [] := by
  rw [List.flatMap_eq_nil_iff]
  intro q hq
  apply hF
  intro hg
  obtain ⟨v, hv, -, -⟩ := (good_iff _).mp hg
  obtain ⟨a, ha⟩ := mem_lazyStar _ _ _ _ hq
  exact hu ':' (by rw [ha, hv]; simp) rfl

theorem lazyStar_content {β : Type} (F : Nat × List Char → List β)
    (hF : ∀ q, ¬ Good q.2 → F q = []) (u : List Char) (hu : ∀ c ∈ u, c ≠ ':') :
    ∀ (x : List Char) (pos : Nat), (∀ c ∈ x, c ≠ '\n') →
      (lazyStar .dot pos (x ++ ':' :: u)).flatMap F = F (pos + x.length, ':' :: u) := by
  intro x
  induction x with
  | nil =>
    intro pos _
    have h : CharClass.dot.test ':' = true := by decide
    simp only [List.nil_append, lazyStar, h, if_true, List.flatMap_cons,
      lazyStar_none F hF u (pos + 1) hu]
    simp
  | cons c x ih =>
    intro pos hx
    have hc : c ≠ '\n' := hx c (by simp)
    have hx2 : ∀ d ∈ x, d ≠ '\n' := fun d hd => hx d (by simp [hd])
    have hbad : F (pos, c :: (x ++ ':' :: u)) = [] := by
      apply hF
      intro hg
      obtain ⟨v, hv, -, hv2⟩ := (good_iff _).mp hg
      simp only [List.cons.injEq] at hv
      exact hv2 ':' (by rw [← hv.2]; simp) rfl
    simp only [List.cons_append, lazyStar, CharClass.test, bne_iff_ne, ne_eq, hc,
      not_false_eq_true, if_true, List.flatMap_cons, hbad, List.nil_append, List.append_eq]
    rw [ih (pos + 1) hx2]
    simp [Nat.add_assoc, Nat.add_comm 1]

theorem run_content_group {β : Type} (g : MState → List β) (p : Nat) (s : List Char)
    (caps : List (Option (List Char))) :
    ((Regex.group 3 (.seq (.group 4 (.starLazy .dot)) (.cls (.lit ':')))).run ⟨p, s, caps⟩).flatMap g
      = (lazyStar .dot p s).flatMap (afterStar g p s caps) := by
  simp only [Regex.run, List.flatMap_map, List.map_map, List.map_flatMap, List.flatMap_assoc]
  congr 1
  funext q
  obtain ⟨q1, q2⟩ := q
  cases q2 with
  | nil => simp [afterStar]
  | cons c v =>
    by_cases hc : c = ':'
    · subst hc
      simp [afterStar, CharClass.test]
    · simp [afterStar, CharClass.test, hc]

theorem afterStar_bad (p : Nat) (s : List Char) (caps : List (Option (List Char)))
    (q : Nat × List Char) (h : ¬ Good q.2) :
    afterStar (fun st => (Regex.seq (.group 5 (.plus (.notLit ':'))) .eol).run st) p s caps q
      = [] := by
  obtain ⟨q1, q2⟩ := q
  cases q2 with
  | nil => simp [afterStar]
  | cons c v =>
    by_cases hc : c = ':'
    · subst hc
      simp only [afterStar]
      apply run_name_fail
      by_contra hcon
      apply h
      refine (good_iff _).mpr ⟨v, rfl, ?_, ?_⟩
      · intro hv; exact hcon (Or.inl hv)
      · intro d hd hd2; exact hcon (Or.inr (hd2 ▸ hd))
    · simp only [afterStar]
      split
      · rename_i heq; simp at heq; exact absurd heq.1 hc
      · rfl

theorem run_contentTail_message (p : Nat) (x u : List Char) (caps : List (Option (List Char)))
    (hx : ∀ c ∈ x, c ≠ '\n') (hne : u ≠ []) (hu : ∀ c ∈ u, c ≠ ':') :
    contentTail.run ⟨p, x ++ ':' :: u, caps⟩ =
      [⟨p + x.length + 1 + u.length, [],
        ((caps.set 4 (some x)).set 3 (some (x ++ [':']))).set 5 (some u)⟩] := by
  have h1 : (Regex.seq (.group 5 (.plus (.notLit ':'))) .eol).run ⟨p, x ++ ':' :: u, caps⟩ = [] :=
    run_name_fail _ _ _ (Or.inr (by simp))
  have h2 := run_content_group
    (fun st => (Regex.seq (.group 5 (.plus (.notLit ':'))) .eol).run st) p (x ++ ':' :: u) caps
  rw [lazyStar_content _ (afterStar_bad p _ caps) u hu x p hx] at h2
  simp only [afterStar] at h2
  rw [run_name_ok _ _ _ hne hu] at h2
  unfold contentTail
  rw [Regex.run, Regex.run, List.flatMap_append, h2, List.flatMap_singleton, h1]
  have e1 : p + x.length + 1 - p = x.length + 1 := by omega
  have e2 : x.length + 1 - x.length = 1 := by omega
  have e3 : List.take (x.length + 1) x = x := List.take_of_length_le (Nat.le_succ _)
  simp [List.take_append_eq_append_take, e1, e2, e3]

theorem run_contentTail_name (p : Nat) (u : List Char) (caps : List (Option (List Char)))
    (hne : u ≠ []) (hu : ∀ c ∈ u, c ≠ ':') :
    contentTail.run ⟨p, u, caps⟩ = [⟨p + u.length, [], caps.set 5 (some u)⟩] := by
  have h2 := run_content_group
    (fun st => (Regex.seq (.group 5 (.plus (.notLit ':'))) .eol).run st) p u caps
  rw [lazyStar_none _ (afterStar_bad p _ caps) u p hu] at h2
  unfold contentTail
  rw [Regex.run, Regex.run, List.flatMap_append, h2, List.flatMap_singleton,
    run_name_ok _ _ _ hne hu]
  simp

theorem pattern_eq : pattern =
    .seq .bol (.seq (.group 1 (.plus (.notLit ':'))) (.seq (.cls (.lit ':'))
      (.seq (.group 2 (.plus (.notLit ':'))) (.seq (.cls (.lit ':')) contentTail)))) := rfl

theorem run_colon_seq (r : Regex) (st : MState) (c : Char) (cs : List Char)
    (h : st.rest = c :: cs) (hc : c ≠ ':') :
    (Regex.seq (.cls (.lit ':')) r).run st = [] := by
  simp [Regex.run, h, CharClass.test, hc]

/-- The pattern up to the second colon, on two non-empty fields without colon. -/
theorem run_pattern_head (g1 g2 s : List Char) (caps : List (Option (List Char)))
    (h1 : g1 ≠ []) (h1c : ∀ c ∈ g1, c ≠ ':') (h2 : g2 ≠ []) (h2c : ∀ c ∈ g2, c ≠ ':') :
    pattern.run ⟨0, g1 ++ ':' :: (g2 ++ ':' :: s), caps⟩ =
      contentTail.run ⟨g1.length + 1 + g2.length + 1, s,
        (caps.set 1 (some g1)).set 2 (some g2)⟩ := by
  rw [pattern_eq, Regex.run, Regex.run]
  simp only [if_true, List.flatMap_singleton]
  rw [Regex.run, run_group_plus _ 1 (':' :: (g2 ++ ':' :: s))
    (by intro c cs h; simp at h; exact h.1.symm)
    (fun st c cs h hc => run_colon_seq _ st c cs h hc) g1 0 caps h1 h1c]
  rw [Regex.run, Regex.run]
  simp only [CharClass.test, beq_self_eq_true, if_true, List.flatMap_singleton]
  rw [Regex.run, run_group_plus _ 2 (':' :: s)
    (by intro c cs h; simp at h; exact h.1.symm)
    (fun st c cs h hc => run_colon_seq _ st c cs h hc) g2 _ _ h2 h2c]
  rw [Regex.run, Regex.run]
  simp [CharClass.test]

theorem allFrom_succ : ∀ (s : List Char) (pos : Nat), pattern.allFrom (pos + 1) s = [] := by
  intro s
  induction s with
  | nil => intro pos; simp [Regex.allFrom, Regex.run, pattern_eq]
  | cons c s ih =>
    intro pos
    rw [Regex.allFrom, ih]
    simp [Regex.run, pattern_eq]

theorem allFrom_zero (s : List Char) :
    pattern.allFrom 0 s =
      ((pattern.run ⟨0, s, List.replicate 6 none⟩).map fun st =>
        st.caps.set 0 (some (s.take st.pos))) := by
  cases s with
  | nil => simp [Regex.allFrom, Regex.run, pattern_eq]
  | cons c s =>
    rw [Regex.allFrom, allFrom_succ]
    have h : pattern.numGroups + 1 = 6 := rfl
    rw [h]
    simp [Regex.run]

/-- Every match of the pattern in a four-field text. -/
theorem allFrom_message (g1 g2 x u : List Char)
    (h1 : g1 ≠ []) (h1c : ∀ c ∈ g1, c ≠ ':') (h2 : g2 ≠ []) (h2c : ∀ c ∈ g2, c ≠ ':')
    (hx : ∀ c ∈ x, c ≠ '\n') (hne : u ≠ []) (hu : ∀ c ∈ u, c ≠ ':') :
    pattern.allFrom 0 (g1 ++ ':' :: (g2 ++ ':' :: (x ++ ':' :: u))) =
      [[some (g1 ++ ':' :: (g2 ++ ':' :: (x ++ ':' :: u))), some g1, some g2,
        some (x ++ [':']), some x, some u]] := by
  rw [allFrom_zero, run_pattern_head _ _ _ _ h1 h1c h2 h2c,
    run_contentTail_message _ _ _ _ hx hne hu]
  have e : g1.length + 1 + g2.length + 1 + x.length + 1 + u.length =
      (g1 ++ ':' :: (g2 ++ ':' :: (x ++ ':' :: u))).length := by
    simp; omega
  simp only [List.map_cons, List.map_nil, e, List.take_length]
  simp [List.replicate]

/-- Every match of the pattern in a three-field text. -/
theorem allFrom_name (g1 g2 u : List Char)
    (h1 : g1 ≠ []) (h1c : ∀ c ∈ g1, c ≠ ':') (h2 : g2 ≠ []) (h2c : ∀ c ∈ g2, c ≠ ':')
    (hne : u ≠ []) (hu : ∀ c ∈ u, c ≠ ':') :
    pattern.allFrom 0 (g1 ++ ':' :: (g2 ++ ':' :: u)) =
      [[some (g1 ++ ':' :: (g2 ++ ':' :: u)), some g1, some g2, none, none, some u]] := by
  rw [allFrom_zero, run_pattern_head _ _ _ _ h1 h1c h2 h2c,
    run_contentTail_name _ _ _ hne hu]
  have e : g1.length + 1 + g2.length + 1 + u.length =
      (g1 ++ ':' :: (g2 ++ ':' :: u)).length := by
    simp; omega
  simp only [List.map_cons, List.map_nil, e, List.take_length]
  simp [List.replicate]

theorem messageFrame_data (id content user : String) :
    (messageFrame id content user).data =
      ['1'] ++ ':' :: (id.data ++ ':' :: (content.data ++ ':' :: user.data)) := by
  have h1 : "1:".data = ['1', ':'] := rfl
  have h2 : ":".data = [':'] := rfl
  simp [messageFrame, String.data_append, h1, h2]

theorem data_ne_nil (s : String) (h : s ≠ "") : s.data ≠ [] := by
  intro h2
  apply h
  cases s
  simp_all

theorem find_messageFrame (id content user : String)
    (hid : id ≠ "") (hidc : ∀ c ∈ id.data, c ≠ ':')
    (hx : ∀ c ∈ content.data, c ≠ '\n')
    (hu : user ≠ "") (huc : ∀ c ∈ user.data, c ≠ ':') :
    FindStringSubmatch pattern (messageFrame id content user) =
      [messageFrame id content user, "1", id, content ++ ":", content, user] := by
  unfold FindStringSubmatch
  rw [messageFrame_data, allFrom_message ['1'] id.data content.data user.data (by simp)
    (by simp) (data_ne_nil _ hid) hidc hx (data_ne_nil _ hu) huc]
  simp only [List.map_cons, List.map_nil]
  have e1 : String.mk (['1'] ++ ':' :: (id.data ++ ':' :: (content.data ++ ':' :: user.data))) =
      messageFrame id content user := String.ext (messageFrame_data id content user).symm
  have e2 : String.mk (content.data ++ [':']) = content ++ ":" :=
    String.ext (by rw [String.data_append])
  rw [e1, e2]

/-- The frame of three fields with type tag 1. -/
theorem find_shortFrame (id name : String)
    (hid : id ≠ "") (hidc : ∀ c ∈ id.data, c ≠ ':')
    (hu : name ≠ "") (huc : ∀ c ∈ name.data, c ≠ ':') :
    FindStringSubmatch pattern ("1:" ++ id ++ ":" ++ name) =
      ["1:" ++ id ++ ":" ++ name, "1", id, "", "", name] := by
  have hd : ("1:" ++ id ++ ":" ++ name).data = ['1'] ++ ':' :: (id.data ++ ':' :: name.data) := by
    have h1 : "1:".data = ['1', ':'] := rfl
    have h2 : ":".data = [':'] := rfl
    simp [String.data_append, h1, h2]
  unfold FindStringSubmatch
  rw [hd, allFrom_name ['1'] id.data name.data (by simp)
    (by simp) (data_ne_nil _ hid) hidc (data_ne_nil _ hu) huc]
  simp only [List.map_cons, List.map_nil]
  have e1 : String.mk (['1'] ++ ':' :: (id.data ++ ':' :: name.data)) =
      "1:" ++ id ++ ":" ++ name := String.ext hd.symm
  rw [e1]

/-! ## The wire codec (C10, C1, C9, C2) -/

theorem not_mem_iff (c : Char) (l : List Char) : c ∉ l ↔ ∀ d ∈ l, d ≠ c := by
  constructor
  · intro h d hd hdc; exact h (hdc ▸ hd)
  · intro h hc; exact h c hc rfl

/-- C10: for every non-empty id and username without colon and every content without
newline (empty or with colons), the grammar matches the frame 1:id:content:username, the
match is the only one, and its groups are 1 = "1", 2 = id, 4 = content, 5 = username. -/
theorem C10_message_frame_unique_match (id content username : String)
    (hid : id ≠ "") (hidc : ':' ∉ id.data) (hx : '\n' ∉ content.data)
    (hu : username ≠ "") (huc : ':' ∉ username.data) :
    pattern.allFrom 0 ("1:" ++ id ++ ":" ++ content ++ ":" ++ username).data =
      [[some ("1:" ++ id ++ ":" ++ content ++ ":" ++ username).data, some "1".data,
        some id.data, some (content ++ ":").data, some content.data, some username.data]] ∧
    FindStringSubmatch pattern ("1:" ++ id ++ ":" ++ content ++ ":" ++ username) =
      ["1:" ++ id ++ ":" ++ content ++ ":" ++ username, "1", id, content ++ ":", content,
        username] := by
  rw [not_mem_iff] at hidc hx huc
  refine ⟨?_, find_messageFrame id content username hid hidc hx hu huc⟩
  have h := messageFrame_data id content username
  unfold messageFrame at h
  rw [h, allFrom_message ['1'] id.data content.data username.data (by simp) (by simp)
    (data_ne_nil _ hid) hidc hx (data_ne_nil _ hu) huc]
  simp [String.data_append]

/-- C10 on the id abc, the content a:b, which holds a colon, and the username u1. -/
theorem C10_message_frame_unique_match_witness :
    pattern.allFrom 0 ("1:" ++ "abc" ++ ":" ++ "a:b" ++ ":" ++ "u1").data =
      [[some ("1:" ++ "abc" ++ ":" ++ "a:b" ++ ":" ++ "u1").data, some "1".data,
        some "abc".data, some ("a:b" ++ ":").data, some "a:b".data, some "u1".data]] ∧
    FindStringSubmatch pattern ("1:" ++ "abc" ++ ":" ++ "a:b" ++ ":" ++ "u1") =
      ["1:" ++ "abc" ++ ":" ++ "a:b" ++ ":" ++ "u1", "1", "abc", "a:b" ++ ":", "a:b", "u1"] :=
  C10_message_frame_unique_match "abc" "a:b" "u1" (by decide) (by decide) (by decide)
    (by decide) (by decide)

theorem dispatch_message (validate : Store → RecordUpsert → Bool) (db : Store)
    (frame g0 id g3 content user : String)
    (h : FindStringSubmatch pattern frame = [g0, "1", id, g3, content, user]) :
    dispatch validate db frame =
      .ok (if validate db ⟨NewRecord "messages",
            [("id", id), ("content", content), ("user", user)]⟩ then
          (db.put "messages" id [("id", id), ("content", content), ("user", user)],
            [.submit "messages" [("id", id), ("content", content), ("user", user)] true])
        else (db, [.submit "messages" [("id", id), ("content", content), ("user", user)] false])) := by
  simp only [dispatch, h, index, bind, Except.bind, List.get?, if_true, NewRecordUpsert,
    RecordUpsert.LoadData, pure, Except.pure, RecordUpsert.Submit]
  cases validate db ⟨NewRecord "messages", [("id", id), ("content", content), ("user", user)]⟩
  · rfl
  · simp [RecordUpsert.id, List.lookup, NewRecord]

theorem dispatch_user (validate : Store → RecordUpsert → Bool) (db : Store)
    (frame g0 id g3 g4 username : String)
    (h : FindStringSubmatch pattern frame = [g0, "2", id, g3, g4, username]) :
    dispatch validate db frame =
      .ok (if validate db ⟨NewRecord "users", [("id", id), ("username", username)]⟩ then
          (db.put "users" id [("id", id), ("username", username)],
            [.submit "users" [("id", id), ("username", username)] true])
        else (db, [.submit "users" [("id", id), ("username", username)] false])) := by
  have h21 : ("2" = "1") = False := by decide
  simp only [dispatch, h, index, bind, Except.bind, List.get?, if_true, NewRecordUpsert,
    RecordUpsert.LoadData, pure, Except.pure, h21, if_false, RecordUpsert.Submit]
  cases validate db ⟨NewRecord "users", [("id", id), ("username", username)]⟩
  · rfl
  · simp [RecordUpsert.id, List.lookup, NewRecord]

theorem effects_submit (b : Bool) (db db2 : Store) (coll : String) (data : Fields) :
    effects (.ok (if b then (db2, [.submit coll data true])
      else (db, [.submit coll data false]))) = .ok [.submit coll data b] := by
  cases b <;> rfl

theorem storeAfter_submit (b : Bool) (db db2 : Store) (coll : String) (data : Fields) :
    storeAfter (.ok (if b then (db2, [.submit coll data true])
      else (db, [.submit coll data false]))) = .ok (if b then db2 else db) := by
  cases b <;> rfl

theorem put_put (db : Store) (coll id : String) (data : Fields) :
    (db.put coll id data).put coll id data = db.put coll id data := by
  funext c i
  simp only [Store.put]
  split <;> rfl

theorem dispatch_nil (validate : Store → RecordUpsert → Bool) (db : Store) (frame : String)
    (h : FindStringSubmatch pattern frame = []) :
    dispatch validate db frame = .error (.indexOutOfRange 1 0) := by
  simp only [dispatch, h, index, bind, Except.bind, List.get?, List.length_nil]

/-- C1, as stated, fails: fields without colon are not enough. A message whose content
holds a newline, a message with an empty username and a user with an empty username are
encoded to frames the grammar does not match, and the dispatch panics on them. -/
theorem C1_roundtrip_counterexample :
    (∀ c ∈ "a\nb".data, c ≠ ':') ∧
    FindStringSubmatch pattern (messageFrame "abc" "a\nb" "u1") = [] ∧
    effects (dispatch acceptAll emptyDb (messageFrame "abc" "a\nb" "u1")) =
      .error (.indexOutOfRange 1 0) ∧
    FindStringSubmatch pattern (messageFrame "abc" "hi" "") = [] ∧
    FindStringSubmatch pattern (userFrame "u1" "") = [] := by
  refine ⟨by decide, by decide, ?_, by decide, by decide⟩
  rw [dispatch_nil _ _ _ (by decide)]
  rfl

/-- C1, amended: for every message whose id and username are non-empty, whose fields hold
no colon and whose content holds no newline, decoding the frame 1:id:content:username
recovers the notification: group 1 is the type tag, group 2 the id, group 4 the content,
group 5 the username, and the dispatch submits exactly these fields to messages. On the
replica the frame 2:u1:alice yields users, id u1, username alice. Nothing is said of the
frame the Primary builds for a created user. -/
theorem C1_roundtrip_amended (validate : Store → RecordUpsert → Bool) (db : Store)
    (id content username : String)
    (hid : id ≠ "") (hidc : ':' ∉ id.data)
    (hcc : ':' ∉ content.data) (hcn : '\n' ∉ content.data)
    (hu : username ≠ "") (huc : ':' ∉ username.data) :
    (FindStringSubmatch pattern (messageFrame id content username) =
        [messageFrame id content username, "1", id, content ++ ":", content, username] ∧
      effects (dispatch validate db (messageFrame id content username)) =
        .ok [.submit "messages" [("id", id), ("content", content), ("user", username)]
          (validate db ⟨NewRecord "messages",
            [("id", id), ("content", content), ("user", username)]⟩)]) ∧
    (FindStringSubmatch pattern "2:u1:alice" = ["2:u1:alice", "2", "u1", "", "", "alice"] ∧
      effects (dispatch validate db "2:u1:alice") =
        .ok [.submit "users" [("id", "u1"), ("username", "alice")]
          (validate db ⟨NewRecord "users", [("id", "u1"), ("username", "alice")]⟩)]) := by
  have _ := hcc
  rw [not_mem_iff] at hidc hcn huc
  have hm := find_messageFrame id content username hid hidc hcn hu huc
  have hus : FindStringSubmatch pattern "2:u1:alice" =
      ["2:u1:alice", "2", "u1", "", "", "alice"] := by decide
  refine ⟨⟨hm, ?_⟩, ⟨hus, ?_⟩⟩
  · rw [dispatch_message validate db _ _ _ _ _ _ hm, effects_submit]
  · rw [dispatch_user validate db _ _ _ _ _ _ hus, effects_submit]

/-- C1, amended, on the scenario: the frame 1:abc:hi:u1 yields messages, id abc, content
hi, user u1. -/
theorem C1_roundtrip_amended_witness :
    (FindStringSubmatch pattern (messageFrame "abc" "hi" "u1") =
        [messageFrame "abc" "hi" "u1", "1", "abc", "hi" ++ ":", "hi", "u1"] ∧
      effects (dispatch acceptAll emptyDb (messageFrame "abc" "hi" "u1")) =
        .ok [.submit "messages" [("id", "abc"), ("content", "hi"), ("user", "u1")]
          (acceptAll emptyDb ⟨NewRecord "messages",
            [("id", "abc"), ("content", "hi"), ("user", "u1")]⟩)]) ∧
    (FindStringSubmatch pattern "2:u1:alice" = ["2:u1:alice", "2", "u1", "", "", "alice"] ∧
      effects (dispatch acceptAll emptyDb "2:u1:alice") =
        .ok [.submit "users" [("id", "u1"), ("username", "alice")]
          (acceptAll emptyDb ⟨NewRecord "users", [("id", "u1"), ("username", "alice")]⟩)]) :=
  C1_roundtrip_amended acceptAll emptyDb "abc" "hi" "u1" (by decide) (by decide) (by decide)
    (by decide) (by decide) (by decide)

/-- C9, as stated, fails: the frame 1:abc:u1 of three fields is not dropped; the grammar
matches it with an empty content group and the handler submits an upsert to messages,
which an accepting collaborator stores. -/
theorem C9_arity_counterexample :
    FindStringSubmatch pattern "1:abc:u1" = ["1:abc:u1", "1", "abc", "", "", "u1"] ∧
    effects (dispatch acceptAll emptyDb "1:abc:u1") =
      .ok [.submit "messages" [("id", "abc"), ("content", ""), ("user", "u1")] true] := by
  have h : FindStringSubmatch pattern "1:abc:u1" = ["1:abc:u1", "1", "abc", "", "", "u1"] := by
    decide
  refine ⟨h, ?_⟩
  rw [dispatch_message acceptAll emptyDb _ _ _ _ _ _ h, effects_submit]
  rfl

/-- C9, amended: for every frame 1:id:name of exactly three non-empty fields without colon
the notification is not dropped: the grammar matches with groups 3 and 4 empty, and the
Ingestion Handler submits one upsert to messages with that id, the empty content and the
name as user. -/
theorem C9_arity_amended (validate : Store → RecordUpsert → Bool) (db : Store)
    (id name : String)
    (hid : id ≠ "") (hidc : ':' ∉ id.data) (hn : name ≠ "") (hnc : ':' ∉ name.data) :
    FindStringSubmatch pattern ("1:" ++ id ++ ":" ++ name) =
      ["1:" ++ id ++ ":" ++ name, "1", id, "", "", name] ∧
    effects (dispatch validate db ("1:" ++ id ++ ":" ++ name)) =
      .ok [.submit "messages" [("id", id), ("content", ""), ("user", name)]
        (validate db ⟨NewRecord "messages", [("id", id), ("content", ""), ("user", name)]⟩)] := by
  rw [not_mem_iff] at hidc hnc
  have h := find_shortFrame id name hid hidc hn hnc
  refine ⟨h, ?_⟩
  rw [dispatch_message validate db _ _ _ _ _ _ h, effects_submit]

/-- C9, amended, on the frame 1:abc:u1. -/
theorem C9_arity_amended_witness :
    FindStringSubmatch pattern ("1:" ++ "abc" ++ ":" ++ "u1") =
      ["1:" ++ "abc" ++ ":" ++ "u1", "1", "abc", "", "", "u1"] ∧
    effects (dispatch acceptAll emptyDb ("1:" ++ "abc" ++ ":" ++ "u1")) =
      .ok [.submit "messages" [("id", "abc"), ("content", ""), ("user", "u1")]
        (acceptAll emptyDb ⟨NewRecord "messages",
          [("id", "abc"), ("content", ""), ("user", "u1")]⟩)] :=
  C9_arity_amended acceptAll emptyDb "abc" "u1" (by decide) (by decide) (by decide) (by decide)

/-- C2, evaluated on the code: the frame hello has no colon and does not match; the
submatch slice is nil, reading its index 1 panics, and the panic ends the process: the
node is crashed after the receive step and later events have no effect. The same happens
for the frame 1::x with an empty field and for the frame the Primary itself builds for a
message whose content holds a newline. -/
theorem C2_malformed_frame_panics :
    FindStringSubmatch pattern "hello" = [] ∧
    effects (dispatch acceptAll emptyDb "hello") = .error (.indexOutOfRange 1 0) ∧
    effects (dispatch acceptAll emptyDb "1::x") = .error (.indexOutOfRange 1 0) ∧
    effects (dispatch acceptAll emptyDb (messageFrame "abc" "a\nb" "u1")) =
      .error (.indexOutOfRange 1 0) ∧
    (run acceptAll (Node.start emptyDb)
      [.locator (some 7) (.ok ""), .locator none (.ok "hello")]).crashed =
        some (.indexOutOfRange 1 0) ∧
    (run acceptAll (Node.start emptyDb)
      [.locator (some 7) (.ok ""), .locator none (.ok "hello"),
        .locator none (.ok "2:u1:alice")]).trace = [.dial dialUrl true] := by
  have h1 : FindStringSubmatch pattern "hello" = [] := by decide
  have h2 : FindStringSubmatch pattern "1::x" = [] := by decide
  have h3 : FindStringSubmatch pattern (messageFrame "abc" "a\nb" "u1") = [] := by decide
  have d1 := dispatch_nil acceptAll emptyDb _ h1
  have d2 := dispatch_nil acceptAll emptyDb _ h2
  have d3 := dispatch_nil acceptAll emptyDb _ h3
  refine ⟨h1, ?_, ?_, ?_, ?_, ?_⟩
  · rw [d1]; rfl
  · rw [d2]; rfl
  · rw [d3]; rfl
  · simp [run, step, Node.start, handleMessage, d1]
  · simp [run, step, Node.start, handleMessage, d1]

/-! ## The broadcast fan-out (C4) -/

theorem broadcastLoop_trace (send : Conn → String → Bool) (message : String) :
    ∀ (keys m : List Conn) (acts : List Act),
      (broadcastLoop send message keys m acts).2 =
        acts ++ keys.map fun c => Act.send c message (send c message) := by
  intro keys
  induction keys with
  | nil => intro m acts; simp [broadcastLoop]
  | cons pb keys ih =>
    intro m acts
    by_cases h : send pb message = true
    · simp [broadcastLoop, h, ih]
    · simp only [Bool.not_eq_true] at h
      simp [broadcastLoop, h, ih]

theorem broadcastLoop_registry (send : Conn → String → Bool) (message : String) :
    ∀ (keys m : List Conn) (acts : List Act), m.Nodup →
      (broadcastLoop send message keys m acts).1 =
        m.filter fun c => !(decide (c ∈ keys) && !send c message) := by
  intro keys
  induction keys with
  | nil => intro m acts _; simp [broadcastLoop]
  | cons pb keys ih =>
    intro m acts hm
    by_cases h : send pb message = true
    · simp only [broadcastLoop, h, if_true]
      rw [ih m _ hm]
      apply List.filter_congr
      intro c _
      by_cases hc : c = pb
      · subst hc; simp [h]
      · simp [hc]
    · simp only [Bool.not_eq_true] at h
      simp only [broadcastLoop, h, Bool.false_eq_true, if_false]
      rw [ih _ _ (hm.erase pb), hm.erase_eq_filter, List.filter_filter]
      apply List.filter_congr
      intro c _
      by_cases hc : c = pb
      · subst hc; simp [h]
      · simp [hc]

theorem attempts_sends (message : String) (f : Conn → Bool) (l : List Conn) :
    attempts (l.map fun c => Act.send c message (f c)) = l := by
  induction l with
  | nil => rfl
  | cons c l ih => simp [attempts, ih]

theorem delivered_sends (message : String) (f : Conn → Bool) (l : List Conn) :
    delivered (l.map fun c => Act.send c message (f c)) = l.filter f := by
  induction l with
  | nil => rfl
  | cons c l ih =>
    by_cases h : f c = true
    · simp [delivered, ih, h]
    · simp only [Bool.not_eq_true] at h
      simp [delivered, ih, h]

theorem length_filter_not_mem (reg B : List Conn) (hreg : reg.Nodup) (hB : B.Nodup)
    (hsub : ∀ c ∈ B, c ∈ reg) :
    (reg.filter fun c => decide (c ∉ B)).length = reg.length - B.length := by
  have hperm : (reg.filter fun c => decide (c ∈ B)).Perm B := by
    rw [List.perm_ext_iff_of_nodup (hreg.filter _) hB]
    intro c
    simp only [List.mem_filter, decide_eq_true_eq]
    exact ⟨fun h => h.2, fun h => ⟨hsub c h, h⟩⟩
  have hlen := hperm.length_eq
  have hsum : reg.length = (reg.filter fun c => decide (c ∈ B)).length +
      (reg.filter fun c => !decide (c ∈ B)).length :=
    List.length_eq_length_filter_add (l := reg) (fun c => decide (c ∈ B))
  have hneg : (reg.filter fun c => decide (c ∉ B)) = reg.filter (fun c => !decide (c ∈ B)) := by
    apply List.filter_congr
    intro c _
    simp
  rw [hneg]
  omega

/-- C4: for a registry of N connections and a payload, when sending fails exactly on
the K registered connections of B, `broadcastMsg` is one call that tries every registered
connection exactly once with that payload, delivers to the N-K others, and returns the
registry without exactly the connections of B. -/
theorem C4_fanout_resilience (send : Conn → String → Bool) (reg B : List Conn)
    (payload : String) (hreg : reg.Nodup) (hB : B.Nodup) (hsub : ∀ c ∈ B, c ∈ reg)
    (hfail : ∀ c ∈ reg, (send c payload = false ↔ c ∈ B)) :
    (broadcastMsg send reg payload).2 =
      Act.broadcast payload :: reg.map (fun c => Act.send c payload (decide (c ∉ B))) ∧
    attempts (broadcastMsg send reg payload).2 = reg ∧
    (∀ c, (attempts (broadcastMsg send reg payload).2).count c = if c ∈ reg then 1 else 0) ∧
    delivered (broadcastMsg send reg payload).2 = reg.filter (fun c => decide (c ∉ B)) ∧
    (delivered (broadcastMsg send reg payload).2).length = reg.length - B.length ∧
    (broadcastMsg send reg payload).1 = reg.filter (fun c => decide (c ∉ B)) ∧
    (∀ c, c ∈ (broadcastMsg send reg payload).1 ↔ c ∈ reg ∧ c ∉ B) := by
  have hmap : (reg.map fun c => Act.send c payload (send c payload)) =
      reg.map fun c => Act.send c payload (decide (c ∉ B)) := by
    apply List.map_congr_left
    intro c hc
    have := hfail c hc
    by_cases hcB : c ∈ B
    · simp [hcB, this.mpr hcB]
    · have h2 : send c payload = true := by
        cases h : send c payload
        · exact absurd (this.mp h) hcB
        · rfl
      simp [hcB, h2]
  have htrace : (broadcastMsg send reg payload).2 =
      Act.broadcast payload :: reg.map (fun c => Act.send c payload (decide (c ∉ B))) := by
    unfold broadcastMsg
    rw [broadcastLoop_trace, hmap]
    rfl
  have hregistry : (broadcastMsg send reg payload).1 = reg.filter (fun c => decide (c ∉ B)) := by
    unfold broadcastMsg
    rw [broadcastLoop_registry _ _ _ _ _ hreg]
    apply List.filter_congr
    intro c hc
    have := hfail c hc
    by_cases hcB : c ∈ B
    · simp [hcB, hc, this.mpr hcB]
    · have h2 : send c payload = true := by
        cases h : send c payload
        · exact absurd (this.mp h) hcB
        · rfl
      simp [hcB, h2]
  have hatt : attempts (broadcastMsg send reg payload).2 = reg := by
    rw [htrace]
    simp only [attempts]
    exact attempts_sends payload _ reg
  have hdel : delivered (broadcastMsg send reg payload).2 =
      reg.filter (fun c => decide (c ∉ B)) := by
    rw [htrace]
    simp only [delivered]
    exact delivered_sends payload _ reg
  refine ⟨htrace, hatt, ?_, hdel, ?_, hregistry, ?_⟩
  · intro c
    rw [hatt]
    by_cases hc : c ∈ reg
    · simp [hc, List.count_eq_one_of_mem hreg hc]
    · simp [hc, List.count_eq_zero_of_not_mem hc]
  · rw [hdel]
    exact length_filter_not_mem reg B hreg hB hsub
  · intro c
    rw [hregistry]
    simp

/-- C4 on the registry 1, 2, 3 where sending to 2 fails. -/
theorem C4_fanout_resilience_witness :
    (broadcastMsg (fun c _ => c != 2) [1, 2, 3] "1:abc:hi:u1").2 =
      Act.broadcast "1:abc:hi:u1" ::
        [1, 2, 3].map (fun c => Act.send c "1:abc:hi:u1" (decide (c ∉ [2]))) ∧
    attempts (broadcastMsg (fun c _ => c != 2) [1, 2, 3] "1:abc:hi:u1").2 = [1, 2, 3] ∧
    (∀ c, (attempts (broadcastMsg (fun c _ => c != 2) [1, 2, 3] "1:abc:hi:u1").2).count c =
      if c ∈ [1, 2, 3] then 1 else 0) ∧
    delivered (broadcastMsg (fun c _ => c != 2) [1, 2, 3] "1:abc:hi:u1").2 =
      [1, 2, 3].filter (fun c => decide (c ∉ [2])) ∧
    (delivered (broadcastMsg (fun c _ => c != 2) [1, 2, 3] "1:abc:hi:u1").2).length =
      [1, 2, 3].length - [2].length ∧
    (broadcastMsg (fun c _ => c != 2) [1, 2, 3] "1:abc:hi:u1").1 =
      [1, 2, 3].filter (fun c => decide (c ∉ [2])) ∧
    (∀ c, c ∈ (broadcastMsg (fun c _ => c != 2) [1, 2, 3] "1:abc:hi:u1").1 ↔
      c ∈ [1, 2, 3] ∧ c ∉ [2]) :=
  C4_fanout_resilience (fun c _ => c != 2) [1, 2, 3] [2] "1:abc:hi:u1" (by decide) (by decide)
    (by decide) (by decide)

/-! ## The role flag (C6, C3) -/

theorem dispatch_acts (validate : Store → RecordUpsert → Bool) (db : Store) (message : String)
    (db2 : Store) (acts : List Act) (h : dispatch validate db message = .ok (db2, acts)) :
    acts = [] ∨ ∃ coll data ok, acts = [.submit coll data ok] := by
  unfold dispatch at h
  simp only [bind, Except.bind, pure, Except.pure] at h
  repeat' split at h
  all_goals first
    | (injection h with h; injection h with h1 h2; subst h2; simp)
    | (exact absurd h (by simp))

theorem promotions_append (t u : List Act) : promotions (t ++ u) = promotions t + promotions u := by
  simp [promotions]

theorem promotions_dispatch (validate : Store → RecordUpsert → Bool) (db : Store)
    (message : String) (db2 : Store) (acts : List Act)
    (h : dispatch validate db message = .ok (db2, acts)) : promotions acts = 0 := by
  rcases dispatch_acts validate db message db2 acts h with h | ⟨coll, data, ok, h⟩ <;>
    subst h <;> simp [promotions]

theorem promotions_broadcastMsg (send : Conn → String → Bool) (reg : List Conn)
    (message : String) : promotions (broadcastMsg send reg message).2 = 0 := by
  unfold broadcastMsg
  rw [broadcastLoop_trace]
  simp [promotions]

theorem step_ws (validate : Store → RecordUpsert → Bool) (n : Node) (ev : Event) :
    (step validate n ev).ws = n.ws := by
  unfold step
  split
  · rfl
  · cases ev with
    | beforeCreate b => simp only [onRecordBeforeCreateRequest]; split <;> rfl
    | afterCreateMessage send e =>
      simp only [onRecordAfterCreateRequestMessages]; split <;> rfl
    | afterCreateUser send e =>
      simp only [onRecordAfterCreateRequestUsers]; split <;> rfl
    | accept c => simp only [handleWebSocket]; split <;> [split <;> rfl; rfl]
    | locator dial recv =>
      simp only [handleMessage]
      repeat' split
      all_goals rfl

theorem step_other (validate : Store → RecordUpsert → Bool) (n : Node) (ev : Event)
    (hev : ev.isBeforeCreate = false) :
    (step validate n ev).PK = n.PK ∧
      promotions (step validate n ev).trace = promotions n.trace := by
  unfold step
  split
  · exact ⟨rfl, rfl⟩
  · cases ev with
    | beforeCreate b => simp [Event.isBeforeCreate] at hev
    | afterCreateMessage send e =>
      simp only [onRecordAfterCreateRequestMessages]
      split
      · simp [promotions_append, promotions_broadcastMsg]
      · exact ⟨rfl, rfl⟩
    | afterCreateUser send e =>
      simp only [onRecordAfterCreateRequestUsers]
      split
      · simp [promotions_append, promotions_broadcastMsg]
      · exact ⟨rfl, rfl⟩
    | accept c => simp only [handleWebSocket]; split <;> [split <;> exact ⟨rfl, rfl⟩; exact ⟨rfl, rfl⟩]
    | locator dial recv =>
      simp only [handleMessage]
      repeat' split
      all_goals first
        | exact ⟨rfl, rfl⟩
        | (refine ⟨rfl, ?_⟩; simp [promotions]; done)
        | (rename_i hd; simp [promotions_append, promotions_dispatch _ _ _ _ _ hd])

theorem run_append (validate : Store → RecordUpsert → Bool) (n : Node) (a b : List Event) :
    run validate n (a ++ b) = run validate (run validate n a) b := by
  simp [run, List.foldl_append]

theorem run_ws (validate : Store → RecordUpsert → Bool) :
    ∀ (evs : List Event) (n : Node), (run validate n evs).ws = n.ws := by
  intro evs
  induction evs with
  | nil => intro n; rfl
  | cons ev evs ih =>
    intro n
    have h : run validate n (ev :: evs) = run validate (step validate n ev) evs := rfl
    rw [h, ih, step_ws]

theorem run_other (validate : Store → RecordUpsert → Bool) :
    ∀ (evs : List Event) (n : Node), (∀ ev ∈ evs, ev.isBeforeCreate = false) →
      (run validate n evs).PK = n.PK ∧
        promotions (run validate n evs).trace = promotions n.trace := by
  intro evs
  induction evs with
  | nil => intro n _; exact ⟨rfl, rfl⟩
  | cons ev evs ih =>
    intro n h
    have hr : run validate n (ev :: evs) = run validate (step validate n ev) evs := rfl
    have h1 := step_other validate n ev (h ev (by simp))
    have h2 := ih (step validate n ev) (fun e he => h e (by simp [he]))
    rw [hr]
    exact ⟨h2.1.trans h1.1, h2.2.trans h1.2⟩

theorem step_promoted (validate : Store → RecordUpsert → Bool) (n : Node) (ev : Event)
    (hPK : n.PK = true) :
    (step validate n ev).PK = true ∧
      promotions (step validate n ev).trace = promotions n.trace := by
  cases hev : ev.isBeforeCreate
  · have h := step_other validate n ev hev
    exact ⟨h.1.trans hPK, h.2⟩
  · cases ev with
    | beforeCreate b =>
      unfold step
      split
      · exact ⟨hPK, rfl⟩
      · simp [onRecordBeforeCreateRequest, hPK]
    | _ => simp [Event.isBeforeCreate] at hev

theorem run_promoted (validate : Store → RecordUpsert → Bool) :
    ∀ (evs : List Event) (n : Node), n.PK = true →
      (run validate n evs).PK = true ∧
        promotions (run validate n evs).trace = promotions n.trace := by
  intro evs
  induction evs with
  | nil => intro n h; exact ⟨h, rfl⟩
  | cons ev evs ih =>
    intro n h
    have hr : run validate n (ev :: evs) = run validate (step validate n ev) evs := rfl
    have h1 := step_promoted validate n ev h
    have h2 := ih (step validate n ev) h1.1
    rw [hr]
    exact ⟨h2.1, h2.2.trans h1.2⟩

/-- C6: from the start state, in every sequence of hook invocations and Leader Locator
steps, the role flag stays true once it is true, and the promotion block (set PK, start
the listener on port 8081, sleep 3 seconds) runs exactly once: not before the first
before-create invocation, at that invocation, and never after it. -/
theorem C6_latched_role (validate : Store → RecordUpsert → Bool) (db : Store)
    (pre post : List Event) (bindOk : Bool)
    (hpre : ∀ ev ∈ pre, ev.isBeforeCreate = false)
    (halive : (run validate (Node.start db) pre).crashed = none) :
    (run validate (Node.start db) pre).PK = false ∧
    promotions (run validate (Node.start db) pre).trace = 0 ∧
    (run validate (Node.start db) (pre ++ [.beforeCreate bindOk])).PK = true ∧
    (run validate (Node.start db) (pre ++ [.beforeCreate bindOk])).trace =
      (run validate (Node.start db) pre).trace ++ [.listen "0.0.0.0:8081", .sleep 3] ∧
    promotions (run validate (Node.start db) (pre ++ [.beforeCreate bindOk])).trace = 1 ∧
    (run validate (Node.start db) (pre ++ .beforeCreate bindOk :: post)).PK = true ∧
    promotions (run validate (Node.start db) (pre ++ .beforeCreate bindOk :: post)).trace = 1 ∧
    (∀ evs1 evs2 : List Event, (run validate (Node.start db) evs1).PK = true →
      (run validate (Node.start db) (evs1 ++ evs2)).PK = true) := by
  have h0 := run_other validate pre (Node.start db) hpre
  have hws := run_ws validate pre (Node.start db)
  have hPK : (run validate (Node.start db) pre).PK = false := h0.1
  have hpr : promotions (run validate (Node.start db) pre).trace = 0 := h0.2
  have hstep : run validate (Node.start db) (pre ++ [.beforeCreate bindOk]) =
      onRecordBeforeCreateRequest (run validate (Node.start db) pre) bindOk := by
    rw [run_append]
    show step validate (run validate (Node.start db) pre) (.beforeCreate bindOk) = _
    simp [step, halive]
  have hws2 : (run validate (Node.start db) pre).ws = none := hws
  have h1 : (run validate (Node.start db) (pre ++ [.beforeCreate bindOk])).PK = true := by
    rw [hstep]; simp [onRecordBeforeCreateRequest, hws2, hPK]
  have h2 : (run validate (Node.start db) (pre ++ [.beforeCreate bindOk])).trace =
      (run validate (Node.start db) pre).trace ++ [.listen "0.0.0.0:8081", .sleep 3] := by
    rw [hstep]; simp [onRecordBeforeCreateRequest, hws2, hPK]
  have h3 : promotions (run validate (Node.start db) (pre ++ [.beforeCreate bindOk])).trace = 1 := by
    rw [h2, promotions_append, hpr]; simp [promotions]
  have hsplit : pre ++ .beforeCreate bindOk :: post = (pre ++ [.beforeCreate bindOk]) ++ post := by
    simp
  have h4 := run_promoted validate post _ h1
  refine ⟨hPK, hpr, h1, h2, h3, ?_, ?_, ?_⟩
  · rw [hsplit, run_append]; exact h4.1
  · rw [hsplit, run_append, h4.2]; exact h3
  · intro evs1 evs2 h
    rw [run_append]
    exact (run_promoted validate evs2 _ h).1

/-- C6 on a failed dial followed by two before-create invocations. -/
theorem C6_latched_role_witness :
    (run acceptAll (Node.start emptyDb) [.locator none (.ok "")]).PK = false ∧
    promotions (run acceptAll (Node.start emptyDb) [.locator none (.ok "")]).trace = 0 ∧
    (run acceptAll (Node.start emptyDb)
      ([.locator none (.ok "")] ++ [.beforeCreate true])).PK = true ∧
    (run acceptAll (Node.start emptyDb)
      ([.locator none (.ok "")] ++ [.beforeCreate true])).trace =
      (run acceptAll (Node.start emptyDb) [.locator none (.ok "")]).trace ++
        [.listen "0.0.0.0:8081", .sleep 3] ∧
    promotions (run acceptAll (Node.start emptyDb)
      ([.locator none (.ok "")] ++ [.beforeCreate true])).trace = 1 ∧
    (run acceptAll (Node.start emptyDb)
      ([.locator none (.ok "")] ++ .beforeCreate true :: [.beforeCreate true])).PK = true ∧
    promotions (run acceptAll (Node.start emptyDb)
      ([.locator none (.ok "")] ++ .beforeCreate true :: [.beforeCreate true])).trace = 1 ∧
    (∀ evs1 evs2 : List Event, (run acceptAll (Node.start emptyDb) evs1).PK = true →
      (run acceptAll (Node.start emptyDb) (evs1 ++ evs2)).PK = true) :=
  C6_latched_role acceptAll emptyDb [.locator none (.ok "")] [.beforeCreate true] true
    (by decide) (by decide)

/-- C3, evaluated on the code: after the Leader Locator has dialed successfully and holds
connection 7, a before-create invocation still sets PK and starts the listener, because
the hook reads the variable ws of main, which no step ever assigns, and not the copy the
Leader Locator uses. -/
theorem C3_promotion_despite_connection :
    (run acceptAll (Node.start emptyDb) [.locator (some 7) (.ok "")]).handleMessage_ws = some 7 ∧
    (run acceptAll (Node.start emptyDb) [.locator (some 7) (.ok "")]).PK = false ∧
    (run acceptAll (Node.start emptyDb)
      [.locator (some 7) (.ok ""), .beforeCreate true]).handleMessage_ws = some 7 ∧
    (run acceptAll (Node.start emptyDb)
      [.locator (some 7) (.ok ""), .beforeCreate true]).PK = true ∧
    (run acceptAll (Node.start emptyDb)
      [.locator (some 7) (.ok ""), .beforeCreate true]).listening = true ∧
    (run acceptAll (Node.start emptyDb)
      [.locator (some 7) (.ok ""), .beforeCreate true]).trace =
        [.dial dialUrl true, .listen "0.0.0.0:8081", .sleep 3] ∧
    (∀ (validate : Store → RecordUpsert → Bool) (db : Store) (evs : List Event),
      (run validate (Node.start db) evs).ws = none) := by
  refine ⟨by decide, by decide, by decide, by decide, by decide, by decide, ?_⟩
  intro validate db evs
  exact run_ws validate evs (Node.start db)

/-! ## The Leader Locator (C5) -/

/-- C5, as stated, fails: after a receive error other than EOF the connection is kept,
nothing is closed, and the next iteration re-enters the receive loop on connection 7
without dialing, although the role is not Primary. -/
theorem C5_reconnect_counterexample :
    (run acceptAll (Node.start emptyDb)
      [.locator (some 7) (.ok ""), .locator none (.error "connection reset by peer")]
      ).handleMessage_ws = some 7 ∧
    (run acceptAll (Node.start emptyDb)
      [.locator (some 7) (.ok ""), .locator none (.error "connection reset by peer"),
        .locator (some 8) (.ok "")]).handleMessage_ws = some 7 ∧
    (run acceptAll (Node.start emptyDb)
      [.locator (some 7) (.ok ""), .locator none (.error "connection reset by peer"),
        .locator (some 8) (.ok "")]).pc = .inner ∧
    (run acceptAll (Node.start emptyDb)
      [.locator (some 7) (.ok ""), .locator none (.error "connection reset by peer"),
        .locator (some 8) (.ok "")]).PK = false ∧
    (run acceptAll (Node.start emptyDb)
      [.locator (some 7) (.ok ""), .locator none (.error "connection reset by peer"),
        .locator (some 8) (.ok "")]).trace = [.dial dialUrl true] := by
  decide

/-- C5, amended: whenever a receive on the established outbound connection returns the
clean end-of-stream error EOF, the Leader Locator closes and discards the connection (it
becomes nil) and, the role not being Primary, its next loop iteration dials afresh instead
of receiving. -/
theorem C5_reconnect_on_eof (validate : Store → RecordUpsert → Bool) (n : Node) (c : Conn)
    (dial1 dial2 : Option Conn) (recv2 : Except String String)
    (hpc : n.pc = .inner) (hws : n.handleMessage_ws = some c) (hPK : n.PK = false) :
    (handleMessage validate n dial1 (.error "EOF")).handleMessage_ws = none ∧
    (handleMessage validate n dial1 (.error "EOF")).pc = .outer ∧
    (handleMessage validate n dial1 (.error "EOF")).trace = n.trace ++ [.close c] ∧
    (handleMessage validate (handleMessage validate n dial1 (.error "EOF")) dial2
      recv2).handleMessage_ws = dial2 ∧
    (handleMessage validate (handleMessage validate n dial1 (.error "EOF")) dial2
      recv2).trace =
        n.trace ++ [.close c] ++
          (match dial2 with
            | some _ => [.dial dialUrl true]
            | none => [.dial dialUrl false, .sleep 3]) := by
  have h1 : handleMessage validate n dial1 (.error "EOF") =
      { n with handleMessage_ws := none, pc := .outer, trace := n.trace ++ [.close c] } := by
    simp [handleMessage, hpc, hws]
  rw [h1]
  refine ⟨rfl, rfl, rfl, ?_, ?_⟩
  · cases dial2 <;> simp [handleMessage, hPK]
  · cases dial2 <;> simp [handleMessage, hPK]

/-- C5, amended, on a node that holds connection 7 and then dials connection 8. -/
theorem C5_reconnect_on_eof_witness :
    (handleMessage acceptAll (run acceptAll (Node.start emptyDb) [.locator (some 7) (.ok "")])
      none (.error "EOF")).handleMessage_ws = none ∧
    (handleMessage acceptAll (run acceptAll (Node.start emptyDb) [.locator (some 7) (.ok "")])
      none (.error "EOF")).pc = .outer ∧
    (handleMessage acceptAll (run acceptAll (Node.start emptyDb) [.locator (some 7) (.ok "")])
      none (.error "EOF")).trace =
        (run acceptAll (Node.start emptyDb) [.locator (some 7) (.ok "")]).trace ++ [.close 7] ∧
    (handleMessage acceptAll (handleMessage acceptAll
      (run acceptAll (Node.start emptyDb) [.locator (some 7) (.ok "")]) none (.error "EOF"))
      (some 8) (.ok "")).handleMessage_ws = some 8 ∧
    (handleMessage acceptAll (handleMessage acceptAll
      (run acceptAll (Node.start emptyDb) [.locator (some 7) (.ok "")]) none (.error "EOF"))
      (some 8) (.ok "")).trace =
        (run acceptAll (Node.start emptyDb) [.locator (some 7) (.ok "")]).trace ++ [.close 7] ++
          (match (some 8 : Option Conn) with
            | some _ => [.dial dialUrl true]
            | none => [.dial dialUrl false, .sleep 3]) :=
  C5_reconnect_on_eof acceptAll (run acceptAll (Node.start emptyDb) [.locator (some 7) (.ok "")])
    7 none (some 8) (.ok "") (by decide) (by decide) (by decide)

/-! ## The broadcast trigger (C7) -/

theorem broadcasts_sends (message : String) (f : Conn → Bool) (l : List Conn) :
    broadcasts (l.map fun c => Act.send c message (f c)) = [] := by
  induction l with
  | nil => rfl
  | cons c l ih => simp [broadcasts, ih]

theorem broadcasts_append (t u : List Act) : broadcasts (t ++ u) = broadcasts t ++ broadcasts u := by
  induction t with
  | nil => rfl
  | cons a t ih => cases a <;> simp [broadcasts, ih]

theorem attempts_append (t u : List Act) : attempts (t ++ u) = attempts t ++ attempts u := by
  induction t with
  | nil => rfl
  | cons a t ih => cases a <;> simp [attempts, ih]

theorem broadcastMsg_calls (send : Conn → String → Bool) (reg : List Conn) (message : String) :
    broadcasts (broadcastMsg send reg message).2 = [message] ∧
      attempts (broadcastMsg send reg message).2 = reg := by
  unfold broadcastMsg
  rw [broadcastLoop_trace]
  simp [broadcasts, attempts, broadcasts_sends, attempts_sends]

/-- C7, evaluated on the code: on a Primary with follower 5, the create of the user
uuuuuuuuuuuuuu1 with username alice broadcasts the frame 2:uuuuuuuuuuuuuu1: and not
2:uuuuuuuuuuuuuu1:alice, because the hook reads the username from the original copy of the
record, which has none; the replica's grammar does not match that frame and its dispatch
panics. The rest of the claim holds: the create of the message abc, hi, u1 broadcasts
1:abc:hi:u1, and for every node and record each hook calls `broadcastMsg` exactly once,
trying every registered connection, when the role is Primary, and leaves the node as it
is when it is not. -/
theorem C7_user_frame_drops_username :
    (createdUser "uuuuuuuuuuuuuu1" "alice").GetString "username" = "alice" ∧
    (createdUser "uuuuuuuuuuuuuu1" "alice").OriginalCopy.GetString "username" = "" ∧
    (run acceptAll (Node.start emptyDb)
      [.beforeCreate true, .accept 5,
        .afterCreateUser (fun _ _ => true) (createdUser "uuuuuuuuuuuuuu1" "alice")]).trace =
      [.listen "0.0.0.0:8081", .sleep 3, .broadcast "2:uuuuuuuuuuuuuu1:",
        .send 5 "2:uuuuuuuuuuuuuu1:" true] ∧
    FindStringSubmatch pattern "2:uuuuuuuuuuuuuu1:" = [] ∧
    effects (dispatch acceptAll emptyDb "2:uuuuuuuuuuuuuu1:") = .error (.indexOutOfRange 1 0) ∧
    (run acceptAll (Node.start emptyDb)
      [.beforeCreate true, .accept 5,
        .afterCreateMessage (fun _ _ => true) (createdMessage "abc" "hi" "u1")]).trace =
      [.listen "0.0.0.0:8081", .sleep 3, .broadcast "1:abc:hi:u1",
        .send 5 "1:abc:hi:u1" true] ∧
    (∀ (n : Node) (send : Conn → String → Bool) (e : EventRecord),
      if n.PK = true then
        broadcasts (onRecordAfterCreateRequestMessages n send e).trace =
          broadcasts n.trace ++ ["1:" ++ e.Id ++ ":" ++ e.OriginalCopy.GetString "content" ++
            ":" ++ e.OriginalCopy.GetString "user"] ∧
        attempts (onRecordAfterCreateRequestMessages n send e).trace =
          attempts n.trace ++ n.connectedServers ∧
        broadcasts (onRecordAfterCreateRequestUsers n send e).trace =
          broadcasts n.trace ++ ["2:" ++ e.Id ++ ":" ++ e.OriginalCopy.GetString "username"] ∧
        attempts (onRecordAfterCreateRequestUsers n send e).trace =
          attempts n.trace ++ n.connectedServers
      else
        onRecordAfterCreateRequestMessages n send e = n ∧
        onRecordAfterCreateRequestUsers n send e = n) := by
  have h : FindStringSubmatch pattern "2:uuuuuuuuuuuuuu1:" = [] := by decide
  refine ⟨by decide, by decide, by decide, h, ?_, by decide, ?_⟩
  · rw [dispatch_nil _ _ _ h]
    rfl
  · intro n send e
    by_cases hPK : n.PK = true
    · simp only [hPK, if_true, onRecordAfterCreateRequestMessages,
        onRecordAfterCreateRequestUsers, broadcasts_append, attempts_append,
        broadcastMsg_calls, messageFrame, userFrame]
      simp
    · simp [hPK, onRecordAfterCreateRequestMessages, onRecordAfterCreateRequestUsers]

/-! ## Ingestion (C8) -/

/-- C8, as stated, fails: the handler always submits a fresh record, and a collaborator
whose validation rejects a fresh record with a taken id leaves the stored message abc with
its old content; the notification is dropped, not applied. -/
theorem C8_upsert_counterexample :
    FindStringSubmatch pattern "1:abc:hi:u1" = ["1:abc:hi:u1", "1", "abc", "hi:", "hi", "u1"] ∧
    (storeAfter (dispatch rejectTaken oneMessage "1:abc:hi:u1")).map
        (fun db => db "messages" "abc") =
      .ok (some [("id", "abc"), ("content", "old"), ("user", "u1")]) ∧
    effects (dispatch rejectTaken oneMessage "1:abc:hi:u1") =
      .ok [.submit "messages" [("id", "abc"), ("content", "hi"), ("user", "u1")] false] := by
  have h : FindStringSubmatch pattern "1:abc:hi:u1" =
      ["1:abc:hi:u1", "1", "abc", "hi:", "hi", "u1"] := by decide
  have hv : rejectTaken oneMessage
      ⟨NewRecord "messages", [("id", "abc"), ("content", "hi"), ("user", "u1")]⟩ = false := by
    decide
  refine ⟨h, ?_, ?_⟩
  · rw [dispatch_message rejectTaken oneMessage _ _ _ _ _ _ h, storeAfter_submit, hv]
    rfl
  · rw [dispatch_message rejectTaken oneMessage _ _ _ _ _ _ h, effects_submit, hv]

/-- C8, amended: for every storage state and every decoded notification, when the storage
collaborator's validation accepts the submission the target collection (messages for type
1, users for type 2) afterwards holds a record with the notification's id and fields,
whether or not one existed before; when it rejects, storage is unchanged; either way,
applying the notification twice leaves storage as applying it once. -/
theorem C8_upsert_amended (validate : Store → RecordUpsert → Bool) (db : Store)
    (frame g0 g3 id content user frame2 h0 h3 h4 uid username : String)
    (hm : FindStringSubmatch pattern frame = [g0, "1", id, g3, content, user])
    (hu : FindStringSubmatch pattern frame2 = [h0, "2", uid, h3, h4, username]) :
    (∃ db1, storeAfter (dispatch validate db frame) = .ok db1 ∧
      (validate db ⟨NewRecord "messages", [("id", id), ("content", content), ("user", user)]⟩
          = true →
        db1 "messages" id = some [("id", id), ("content", content), ("user", user)]) ∧
      (validate db ⟨NewRecord "messages", [("id", id), ("content", content), ("user", user)]⟩
          = false → db1 = db) ∧
      storeAfter (dispatch validate db1 frame) = .ok db1) ∧
    (∃ db1, storeAfter (dispatch validate db frame2) = .ok db1 ∧
      (validate db ⟨NewRecord "users", [("id", uid), ("username", username)]⟩ = true →
        db1 "users" uid = some [("id", uid), ("username", username)]) ∧
      (validate db ⟨NewRecord "users", [("id", uid), ("username", username)]⟩ = false →
        db1 = db) ∧
      storeAfter (dispatch validate db1 frame2) = .ok db1) := by
  constructor
  · refine ⟨if validate db ⟨NewRecord "messages",
        [("id", id), ("content", content), ("user", user)]⟩ then
        db.put "messages" id [("id", id), ("content", content), ("user", user)] else db,
      ?_, ?_, ?_, ?_⟩
    · rw [dispatch_message validate db _ _ _ _ _ _ hm, storeAfter_submit]
    · intro hv
      simp [hv, Store.put]
    · intro hv
      simp [hv]
    · rw [dispatch_message validate _ _ _ _ _ _ _ hm, storeAfter_submit]
      cases hv : validate db
        ⟨NewRecord "messages", [("id", id), ("content", content), ("user", user)]⟩
      · simp [hv]
      · simp [put_put]
  · refine ⟨if validate db ⟨NewRecord "users", [("id", uid), ("username", username)]⟩ then
        db.put "users" uid [("id", uid), ("username", username)] else db, ?_, ?_, ?_, ?_⟩
    · rw [dispatch_user validate db _ _ _ _ _ _ hu, storeAfter_submit]
    · intro hv
      simp [hv, Store.put]
    · intro hv
      simp [hv]
    · rw [dispatch_user validate _ _ _ _ _ _ _ hu, storeAfter_submit]
      cases hv : validate db ⟨NewRecord "users", [("id", uid), ("username", username)]⟩
      · simp [hv]
      · simp [put_put]


/-- C8, amended, on the frames 1:abc:hi:u1 and 2:u1:alice with an accepting collaborator
and an empty store. -/
theorem C8_upsert_amended_witness :
    (∃ db1, storeAfter (dispatch acceptAll emptyDb "1:abc:hi:u1") = .ok db1 ∧
      (acceptAll emptyDb
          ⟨NewRecord "messages", [("id", "abc"), ("content", "hi"), ("user", "u1")]⟩ = true →
        db1 "messages" "abc" = some [("id", "abc"), ("content", "hi"), ("user", "u1")]) ∧
      (acceptAll emptyDb
          ⟨NewRecord "messages", [("id", "abc"), ("content", "hi"), ("user", "u1")]⟩ = false →
        db1 = emptyDb) ∧
      storeAfter (dispatch acceptAll db1 "1:abc:hi:u1") = .ok db1) ∧
    (∃ db1, storeAfter (dispatch acceptAll emptyDb "2:u1:alice") = .ok db1 ∧
      (acceptAll emptyDb ⟨NewRecord "users", [("id", "u1"), ("username", "alice")]⟩ = true →
        db1 "users" "u1" = some [("id", "u1"), ("username", "alice")]) ∧
      (acceptAll emptyDb ⟨NewRecord "users", [("id", "u1"), ("username", "alice")]⟩ = false →
        db1 = emptyDb) ∧
      storeAfter (dispatch acceptAll db1 "2:u1:alice") = .ok db1) :=
  C8_upsert_amended acceptAll emptyDb "1:abc:hi:u1" "1:abc:hi:u1" "hi:" "abc" "hi" "u1"
    "2:u1:alice" "2:u1:alice" "" "" "u1" "alice" (by decide) (by decide)

end YouChat
